import Mathlib

/-!
Verification development for the BAC → Monarch Money statement converter
(`src/app.py`).  Python strings are modelled as `List Char`, pandas
dataframes as a column list plus rows of optional string cells (a missing
cell models `NaN`), and each Python function of the core is translated
into an executable Lean definition.  Machine-level caveats of the model
are noted next to each definition.
-/

set_option maxHeartbeats 1000000

/-- Python strings are modelled as lists of characters. -/
abbrev Str : Type := List Char

/-- Helper turning a Lean string literal into the `Str` model. -/
def chars (s : String) : Str := s.data

/-- The whitespace test used by Python's `str.strip` and the regex class
`\s`, restricted to the ASCII whitespace characters (the inputs of this
program contain no exotic Unicode whitespace). -/
def isPySpace (c : Char) : Bool :=
  c == ' ' || c == '\t' || c == '\n' || c == '\r' || c == '\x0b' || c == '\x0c'

/-- Python `str.strip()`: remove whitespace from both ends. -/
def pyStrip (s : Str) : Str :=
  ((s.dropWhile isPySpace).reverse.dropWhile isPySpace).reverse

/-- Python `str.split(sep)` for a one-character separator. -/
def splitChar (sep : Char) : Str → List Str
  | [] => [[]]
  | c :: t =>
    if c = sep then [] :: splitChar sep t
    else
      match splitChar sep t with
      | [] => [[c]]
      | h :: r => (c :: h) :: r

/-- First index at which `pat` occurs as a substring of `s`
(Python `str.find`, `none` instead of `-1`). -/
def findSubIdx (s pat : Str) : Option Nat :=
  if pat.isPrefixOf s then some 0
  else
    match s with
    | [] => none
    | _ :: t => (findSubIdx t pat).map (· + 1)

/-- Python `pat in s` substring containment. -/
def containsSub (s pat : Str) : Bool := (findSubIdx s pat).isSome

/-- Python `str.find`, with `-1` encoded as `Int`. -/
def pyFind (s pat : Str) : Int :=
  match findSubIdx s pat with
  | some n => (n : Int)
  | none => -1

/-- Numeric value of a list of decimal digit characters. -/
def natOfDigits (s : Str) : Nat :=
  s.foldl (fun a c => a * 10 + (c.toNat - 48)) 0

/-- Decimal rendering of a natural number as a `Str`. -/
def natToStr (n : Nat) : Str := (toString n).data

/-- A pandas dataframe: column names plus rows of cells; a `none` cell
models `NaN`. -/
structure DataFrame where
  cols : List Str
  rows : List (List (Option Str))
deriving DecidableEq, Repr

/-- Cell of `df` at row `i`, column `j` (out of range reads give `none`,
matching a `NaN` read). -/
def cellAt (df : DataFrame) (i j : Nat) : Option Str :=
  (df.rows.getD i []).getD j none

/-- `astype(str)` on a cell: pandas renders `NaN` as the string `"nan"`. -/
def cellToStr (c : Option Str) : Str := c.getD (chars "nan")

/-- First index of `name` in a column list (pandas label lookup picks the
first matching column). -/
def colIdx (name : Str) : List Str → Option Nat
  | [] => none
  | c :: t => if c == name then some 0 else (colIdx name t).map (· + 1)

/-!
### Internal transfer references (`TEF\s+A\s*:\s*(\d+)`)

The Python regex `TEF\s+A\s*:\s*(\d+)` is deterministic under maximal
munch, because each greedy subpattern (`\s+`, `\s*`, `\d+`) is followed
by a literal from a disjoint character class; `matchTEF` is therefore an
exact model of a match attempt at the start of a string.  The digit
class is modelled as the ASCII digits.
-/

/-- Attempt to match `TEF\s+A\s*:\s*(\d+)` at the head of `s`; on
success return the matched text, the captured digit run, and the
remainder of the string. -/
def matchTEF (s : Str) : Option (Str × Str × Str) :=
  match s with
  | 'T' :: 'E' :: 'F' :: s1 =>
    if s1.takeWhile isPySpace = [] then none
    else
      match s1.dropWhile isPySpace with
      | 'A' :: s3 =>
        match s3.dropWhile isPySpace with
        | ':' :: s5 =>
          if (s5.dropWhile isPySpace).takeWhile Char.isDigit = [] then none
          else
            some ('T' :: 'E' :: 'F' :: (s1.takeWhile isPySpace ++ 'A' ::
                    (s3.takeWhile isPySpace ++ ':' ::
                      (s5.takeWhile isPySpace ++
                        (s5.dropWhile isPySpace).takeWhile Char.isDigit))),
                  (s5.dropWhile isPySpace).takeWhile Char.isDigit,
                  (s5.dropWhile isPySpace).dropWhile Char.isDigit)
        | _ => none
      | _ => none
  | _ => none

/-- First-match lookup in an association list, modelling a Python dict
read (dict keys are unique). -/
def alookup (m : List (Str × Str)) (k : Str) : Option Str :=
  (m.find? (fun p => p.1 == k)).map (·.2)

/-- The matched text of a successful `matchTEF` plus the remainder
reassemble the input, and the match is nonempty. -/
theorem matchTEF_decomp {s a d r : Str} (h : matchTEF s = some (a, d, r)) :
    a ++ r = s ∧ a ≠ [] := by
  unfold matchTEF at h
  split at h
  case h_2 => exact absurd h (by simp)
  case h_1 s1 =>
    rw [if_neg] at h
    case hnc =>
      intro hc
      rw [if_pos hc] at h
      exact absurd h (by simp)
    revert h
    split
    case h_2 => intro h; exact absurd h (by simp)
    case h_1 s3 hdrop1 =>
      split
      case h_2 => intro h; exact absurd h (by simp)
      case h_1 s5 hdrop3 =>
        intro h
        rw [if_neg] at h
        case hnc =>
          intro hc
          rw [if_pos hc] at h
          exact absurd h (by simp)
        have hs1 : s1.takeWhile isPySpace ++ 'A' :: s3 = s1 := by
          rw [← hdrop1]; exact List.takeWhile_append_dropWhile _ _
        have hs3 : s3.takeWhile isPySpace ++ ':' :: s5 = s3 := by
          rw [← hdrop3]; exact List.takeWhile_append_dropWhile _ _
        have hs5 : s5.takeWhile isPySpace ++ s5.dropWhile isPySpace = s5 :=
          List.takeWhile_append_dropWhile _ _
        have hd5 : (s5.dropWhile isPySpace).takeWhile Char.isDigit ++
            (s5.dropWhile isPySpace).dropWhile Char.isDigit = s5.dropWhile isPySpace :=
          List.takeWhile_append_dropWhile _ _
        simp only [Option.some.injEq, Prod.mk.injEq] at h
        obtain ⟨rfl, rfl, rfl⟩ := h
        refine ⟨?_, by simp⟩
        simp only [List.cons_append, List.append_assoc]
        rw [hd5, hs5, hs3, hs1]

/-- The remainder of a successful `matchTEF` is strictly shorter than
the input. -/
theorem matchTEF_rest_lt {s a d r : Str} (h : matchTEF s = some (a, d, r)) :
    r.length < s.length := by
  obtain ⟨heq, hne⟩ := matchTEF_decomp h
  have := congrArg List.length heq
  simp only [List.length_append] at this
  cases a with
  | nil => exact absurd rfl hne
  | cons x xs => simp at this; omega

/-- Fuelled worker for `subTEF`; the fuel only serves to make the
recursion structural, `subTEF` always supplies enough. -/
def subTEFAux (m : List (Str × Str)) : Nat → Str → Str
  | 0, s => s
  | _ + 1, [] => []
  | fuel + 1, c :: t =>
    match matchTEF (c :: t) with
    | some (a, d, r) =>
      (match alookup m d with
       | some nm => nm ++ chars " - BAC:" ++ d
       | none => a) ++ subTEFAux m fuel r
    | none => c :: subTEFAux m fuel t

/-- Model of `re.sub(r'TEF\s+A\s*:\s*(\d+)', replace_tef, desc)` from
`apply_account_mappings`: scan left to right; at each match, a mapped
digit run is replaced by `"<name> - BAC:<digits>"` and an unmapped one
reproduces the matched text verbatim. -/
def subTEF (m : List (Str × Str)) (s : Str) : Str := subTEFAux m s.length s

/-- The fuel of `subTEFAux` is irrelevant once it covers the input. -/
theorem subTEFAux_congr (m : List (Str × Str)) :
    ∀ (n : Nat) (s : Str) (n' : Nat), s.length ≤ n → s.length ≤ n' →
      subTEFAux m n s = subTEFAux m n' s := by
  intro n
  induction n with
  | zero =>
    intro s n' h1 _
    have : s = [] := List.eq_nil_of_length_eq_zero (Nat.le_zero.mp h1)
    subst this; cases n' <;> rfl
  | succ n ih =>
    intro s n' h1 h2
    cases s with
    | nil => cases n' <;> rfl
    | cons c t =>
      cases n' with
      | zero => simp at h2
      | succ n'' =>
        simp only [subTEFAux]
        cases hm : matchTEF (c :: t) with
        | some v =>
          obtain ⟨a, d, r⟩ := v
          have hr := matchTEF_rest_lt hm
          simp only [List.length_cons] at h1 h2 hr
          show (match alookup m d with
                | some nm => nm ++ chars " - BAC:" ++ d
                | none => a) ++ subTEFAux m n r =
              (match alookup m d with
                | some nm => nm ++ chars " - BAC:" ++ d
                | none => a) ++ subTEFAux m n'' r
          rw [ih r n'' (by omega) (by omega)]
        | none =>
          simp only [List.length_cons] at h1 h2
          show c :: subTEFAux m n t = c :: subTEFAux m n'' t
          rw [ih t n'' (by omega) (by omega)]

/-- Unfolding `subTEF` at a successful match. -/
theorem subTEF_cons_match {m : List (Str × Str)} {c : Char} {t a d r : Str}
    (h : matchTEF (c :: t) = some (a, d, r)) :
    subTEF m (c :: t) =
      (match alookup m d with
       | some nm => nm ++ chars " - BAC:" ++ d
       | none => a) ++ subTEF m r := by
  have hr := matchTEF_rest_lt h
  simp only [List.length_cons] at hr
  simp only [subTEF, List.length_cons, subTEFAux, h]
  rw [subTEFAux_congr m t.length r r.length (by omega) (le_refl _)]

/-- Unfolding `subTEF` when no match starts at the head. -/
theorem subTEF_cons_nomatch {m : List (Str × Str)} {c : Char} {t : Str}
    (h : matchTEF (c :: t) = none) :
    subTEF m (c :: t) = c :: subTEF m t := by
  simp only [subTEF, List.length_cons, subTEFAux, h]

/-- Fuelled worker for `findTEFRefs`. -/
def findTEFRefsAux : Nat → Str → List Str
  | 0, _ => []
  | _ + 1, [] => []
  | fuel + 1, c :: t =>
    match matchTEF (c :: t) with
    | some (_, d, r) => d :: findTEFRefsAux fuel r
    | none => findTEFRefsAux fuel t

/-- Model of `re.findall(r'TEF\s+A\s*:\s*(\d+)', desc)`: the captured
digit runs of all non-overlapping matches, left to right (used by
`detect_tef_accounts` and to state "contains no TEF reference"). -/
def findTEFRefs (s : Str) : List Str := findTEFRefsAux s.length s

/-- The fuel of `findTEFRefsAux` is irrelevant once it covers the input. -/
theorem findTEFRefsAux_congr :
    ∀ (n : Nat) (s : Str) (n' : Nat), s.length ≤ n → s.length ≤ n' →
      findTEFRefsAux n s = findTEFRefsAux n' s := by
  intro n
  induction n with
  | zero =>
    intro s n' h1 _
    have : s = [] := List.eq_nil_of_length_eq_zero (Nat.le_zero.mp h1)
    subst this; cases n' <;> rfl
  | succ n ih =>
    intro s n' h1 h2
    cases s with
    | nil => cases n' <;> rfl
    | cons c t =>
      cases n' with
      | zero => simp at h2
      | succ n'' =>
        simp only [findTEFRefsAux]
        cases hm : matchTEF (c :: t) with
        | some v =>
          obtain ⟨a, d, r⟩ := v
          have hr := matchTEF_rest_lt hm
          simp only [List.length_cons] at h1 h2 hr
          show d :: findTEFRefsAux n r = d :: findTEFRefsAux n'' r
          rw [ih r n'' (by omega) (by omega)]
        | none =>
          simp only [List.length_cons] at h1 h2
          show findTEFRefsAux n t = findTEFRefsAux n'' t
          rw [ih t n'' (by omega) (by omega)]

/-- Unfolding `findTEFRefs` at a successful match. -/
theorem findTEFRefs_cons_match {c : Char} {t a d r : Str}
    (h : matchTEF (c :: t) = some (a, d, r)) :
    findTEFRefs (c :: t) = d :: findTEFRefs r := by
  have hr := matchTEF_rest_lt h
  simp only [List.length_cons] at hr
  simp only [findTEFRefs, List.length_cons, findTEFRefsAux, h]
  rw [findTEFRefsAux_congr t.length r r.length (by omega) (le_refl _)]

/-- Unfolding `findTEFRefs` when no match starts at the head. -/
theorem findTEFRefs_cons_nomatch {c : Char} {t : Str}
    (h : matchTEF (c :: t) = none) :
    findTEFRefs (c :: t) = findTEFRefs t := by
  simp only [findTEFRefs, List.length_cons, findTEFRefsAux, h]

/-!
### Interbank (SINPE) rewriting and the account-mapping pass
-/

/-- Fuelled worker for `replaceAll`. -/
def replaceAllAux (pat rep : Str) : Nat → Str → Str
  | 0, s => s
  | _ + 1, [] => []
  | fuel + 1, c :: t =>
    if pat.isPrefixOf (c :: t) then rep ++ replaceAllAux pat rep fuel ((c :: t).drop pat.length)
    else c :: replaceAllAux pat rep fuel t

/-- Python `s.replace(pat, rep)`: replace every non-overlapping
occurrence, left to right (only ever called with a nonempty `pat` in
this program, so the empty-pattern corner of Python is irrelevant). -/
def replaceAll (pat rep s : Str) : Str := replaceAllAux pat rep s.length s

/-- The SINPE replacement loop of `replace_transfers`: for each mapping
entry in dict order, if the account number occurs in the current text,
replace every occurrence of `"CD SINPE A " ++ account` by
`"<name> - SINPE:<account>"`. -/
def sinpeApply (sinpe : List (Str × Str)) (s : Str) : Str :=
  sinpe.foldl
    (fun cur p =>
      if containsSub cur p.1 then
        replaceAll (chars "CD SINPE A " ++ p.1) (p.2 ++ chars " - SINPE:" ++ p.1) cur
      else cur) s

/-- `replace_transfers` from `apply_account_mappings`: `pd.isna` guard,
then the TEF regex pass, then the SINPE pass (the SINPE pass only runs
when `"CD SINPE A "` occurs in the TEF-rewritten text). -/
def replace_transfers (bac sinpe : List (Str × Str)) : Option Str → Option Str
  | none => none
  | some d =>
    some (if containsSub (subTEF bac d) (chars "CD SINPE A ")
          then sinpeApply sinpe (subTEF bac d)
          else subTEF bac d)

/-- The ordered list of description-column names probed by the source
(`['Merchant', 'Descripci√≥n de Transacci√≥n', 'Description']`). -/
def descPriority : List Str :=
  [chars "Merchant", chars "Descripci√≥n de Transacci√≥n", chars "Description"]

/-- Index of the merchant/description column: the first name of
`descPriority` present among the columns, resolved to its first index
(pandas label access picks the first matching column). -/
def merchantColIdx (cols : List Str) : Option Nat :=
  match descPriority.find? (fun n => cols.contains n) with
  | none => none
  | some n => colIdx n cols

/-- `apply_account_mappings` as a value-level function: rewrite every
cell of the merchant column with `replace_transfers`; if no merchant
column is found the frame is returned untouched. -/
def apply_account_mappings (df : DataFrame) (bac sinpe : List (Str × Str)) : DataFrame :=
  match merchantColIdx df.cols with
  | none => df
  | some j =>
    { cols := df.cols,
      rows := df.rows.map (fun r => r.set j (replace_transfers bac sinpe (r.getD j none))) }

/-- Reference-level semantics of the Python call
`apply_account_mappings(df, ...)`: the callee receives a reference into
the caller's heap, assigns the rewritten merchant column into that same
object (`df[merchant_col] = ...`), and returns the same reference. -/
def apply_account_mappings_ref (h : List DataFrame) (ref : Nat)
    (bac sinpe : List (Str × Str)) : List DataFrame × Nat :=
  match h.get? ref with
  | none => (h, ref)
  | some df => (h.set ref (apply_account_mappings df bac sinpe), ref)

/-- The slice `desc[k:]` for a nonnegative Python index. -/
def pyDrop (s : Str) (k : Int) : Str := s.drop k.toNat

/-- One row of `detect_sinpe_accounts`: the reference collected from a
single description, translated statement by statement from the source
(including the reuse of the `'CD SINPE A '` find-index in the
`PIN-SINPE` branch). -/
def detectSinpeRow (desc : Str) : Option Str :=
  if (chars "CD SINPE A ").isPrefixOf desc || (chars "PIN-SINPE A:").isPrefixOf desc then
    let s1 : Int := pyFind desc (chars "CD SINPE A ")
    let start_idx : Int := if s1 = -1 then pyFind desc (chars "PIN-SINPE A:") else s1
    if start_idx ≠ -1 then
      let sinpe_text :=
        if (chars "CD SINPE A ").isPrefixOf desc then pyStrip (pyDrop desc (start_idx + 11))
        else pyStrip (pyDrop desc (start_idx + 12))
      match findSubIdx sinpe_text (chars " ") with
      | some e => some (sinpe_text.take e)
      | none => some sinpe_text
    else none
  else none

/-- `detect_sinpe_accounts`: collect the SINPE references of all rows of
the merchant column (a Python `set`, modelled as a first-occurrence
list). -/
def detect_sinpe_accounts (df : DataFrame) : List Str :=
  match merchantColIdx df.cols with
  | none => []
  | some j =>
    df.rows.foldl
      (fun acc r =>
        match detectSinpeRow (cellToStr (r.getD j none)) with
        | some a => if acc.contains a then acc else acc ++ [a]
        | none => acc) []

/-!
### Shared helper lemmas
-/

/-- Splitting `takeWhile`/`dropWhile` at a known boundary. -/
theorem takeWhile_app {p : Char → Bool} {w r : Str}
    (hw : ∀ c ∈ w, p c = true) (hr : ∀ c, r.head? = some c → p c = false) :
    (w ++ r).takeWhile p = w ∧ (w ++ r).dropWhile p = r := by
  induction w with
  | nil =>
    simp only [List.nil_append]
    cases r with
    | nil => exact ⟨rfl, rfl⟩
    | cons c t =>
      have := hr c rfl
      constructor
      · simp [List.takeWhile_cons, this]
      · simp [List.dropWhile_cons, this]
  | cons x xs ih =>
    have hx := hw x (by simp)
    have ih' := ih (fun c hc => hw c (by simp [hc]))
    constructor
    · simp [List.takeWhile_cons, hx, ih'.1]
    · simp [List.dropWhile_cons, hx, ih'.2]

/-- ASCII digits are not Python whitespace. -/
theorem digit_not_space {c : Char} (h : c.isDigit = true) : isPySpace c = false := by
  cases hc : isPySpace c
  · rfl
  · exfalso
    simp only [isPySpace, Bool.or_eq_true, beq_iff_eq] at hc
    rcases hc with ((((h1 | h1) | h1) | h1) | h1) | h1 <;> subst h1 <;> exact absurd h (by decide)

/-- Setting a list element to the value already there is a no-op. -/
theorem set_getD_cancel {α : Type} : ∀ (l : List α) (i : Nat) (d : α),
    l.set i (l.getD i d) = l := by
  intro l
  induction l with
  | nil => intro i d; rfl
  | cons x xs ih =>
    intro i d
    cases i with
    | zero => rfl
    | succ n => simp only [List.getD_cons_succ, List.set_cons_succ]; rw [ih]

/-- `getD` after `set` at the same, in-range index. -/
theorem getD_set_self {α : Type} : ∀ (l : List α) (i : Nat) (v d : α),
    i < l.length → (l.set i v).getD i d = v := by
  intro l
  induction l with
  | nil => intro i v d h; simp at h
  | cons x xs ih =>
    intro i v d h
    cases i with
    | zero => rfl
    | succ n =>
      simp only [List.set_cons_succ, List.getD_cons_succ]
      exact ih n v d (by simpa using h)

/-- `getD` after `set` at a different index. -/
theorem getD_set_ne {α : Type} : ∀ (l : List α) (i j : Nat) (v d : α),
    i ≠ j → (l.set i v).getD j d = l.getD j d := by
  intro l
  induction l with
  | nil => intro i j v d h; rfl
  | cons x xs ih =>
    intro i j v d h
    cases i with
    | zero =>
      cases j with
      | zero => exact absurd rfl h
      | succ m => rfl
    | succ n =>
      cases j with
      | zero => rfl
      | succ m =>
        simp only [List.set_cons_succ, List.getD_cons_succ]
        exact ih n m v d (by omega)

/-- `getD` with default `[]` commutes with a map that fixes `[]`. -/
theorem getD_map_nil {α : Type} (f : List α → List α) (hf : f [] = []) :
    ∀ (l : List (List α)) (i : Nat), (l.map f).getD i [] = f (l.getD i []) := by
  intro l
  induction l with
  | nil => intro i; simp [hf]
  | cons x xs ih =>
    intro i
    cases i with
    | zero => rfl
    | succ n => simp only [List.map_cons, List.getD_cons_succ]; exact ih n

/-- A string with no TEF reference is fixed by `subTEF`, whatever the
mapping. -/
theorem subTEF_id_of_noRefs :
    ∀ (n : Nat) (s : Str), s.length ≤ n → findTEFRefs s = [] →
      ∀ m, subTEF m s = s := by
  intro n
  induction n with
  | zero =>
    intro s h1 _ m
    have : s = [] := List.eq_nil_of_length_eq_zero (Nat.le_zero.mp h1)
    subst this; rfl
  | succ n ih =>
    intro s h1 h2 m
    cases s with
    | nil => rfl
    | cons c t =>
      cases hm : matchTEF (c :: t) with
      | some v =>
        obtain ⟨a, d, r⟩ := v
        rw [findTEFRefs_cons_match hm] at h2
        exact absurd h2 (by simp)
      | none =>
        rw [subTEF_cons_nomatch hm]
        rw [findTEFRefs_cons_nomatch hm] at h2
        simp only [List.length_cons] at h1
        rw [ih t (by omega) h2 m]

/-- `subTEF` with an empty mapping is the identity. -/
theorem subTEF_nil_map :
    ∀ (n : Nat) (s : Str), s.length ≤ n → subTEF [] s = s := by
  intro n
  induction n with
  | zero =>
    intro s h1
    have : s = [] := List.eq_nil_of_length_eq_zero (Nat.le_zero.mp h1)
    subst this; rfl
  | succ n ih =>
    intro s h1
    cases s with
    | nil => rfl
    | cons c t =>
      cases hm : matchTEF (c :: t) with
      | some v =>
        obtain ⟨a, d, r⟩ := v
        rw [subTEF_cons_match hm]
        obtain ⟨heq, -⟩ := matchTEF_decomp hm
        have hr := matchTEF_rest_lt hm
        simp only [List.length_cons] at h1 hr
        show (match alookup [] d with
              | some nm => nm ++ chars " - BAC:" ++ d
              | none => a) ++ subTEF [] r = c :: t
        rw [ih r (by omega)]
        exact heq
      | none =>
        rw [subTEF_cons_nomatch hm]
        simp only [List.length_cons] at h1
        rw [ih t (by omega)]

/-- `replace_transfers` with empty mappings is the identity on cells. -/
theorem replace_transfers_nil (c : Option Str) : replace_transfers [] [] c = c := by
  cases c with
  | none => rfl
  | some d =>
    simp only [replace_transfers]
    rw [subTEF_nil_map d.length d (le_refl _)]
    have : sinpeApply [] d = d := rfl
    rw [this, ite_self]

/-- `apply_account_mappings` preserves the column list. -/
theorem apply_account_mappings_cols (df : DataFrame) (bac sinpe : List (Str × Str)) :
    (apply_account_mappings df bac sinpe).cols = df.cols := by
  unfold apply_account_mappings
  cases merchantColIdx df.cols <;> rfl

/-- `apply_account_mappings` preserves the row count. -/
theorem apply_account_mappings_len (df : DataFrame) (bac sinpe : List (Str × Str)) :
    (apply_account_mappings df bac sinpe).rows.length = df.rows.length := by
  unfold apply_account_mappings
  cases merchantColIdx df.cols
  · rfl
  · simp

/-!
### The statement parser (`parse_bac_csv`)
-/

/-- Error taxonomy of the parser: `noHeader` models the
`ValueError("Could not find transaction headers ...")` (the spec's
`FormatError`); `csvErr` models a `pandas.read_csv` tokenizing error. -/
inductive ParseErr
  | noHeader
  | csvErr
deriving DecidableEq, Repr

/-- Primary header test: the line contains the literal
`'Fecha de Transacci√≥n'`. -/
def primaryHeader (l : Str) : Bool := containsSub l (chars "Fecha de Transacci√≥n")

/-- Fallback header test: `'Fecha'` together with `'Descripci√≥n'` or
`'Descripcion'`. -/
def fallbackHeader (l : Str) : Bool :=
  containsSub l (chars "Fecha") &&
    (containsSub l (chars "Descripci√≥n") || containsSub l (chars "Descripcion"))

/-- Index of the first line satisfying `p` (the top-down scan of the
source). -/
def findHeaderIdx (p : Str → Bool) : List Str → Option Nat
  | [] => none
  | l :: t => if p l then some 0 else (findHeaderIdx p t).map (· + 1)

/-- The block-terminator test of the end scan, on the raw line at
absolute index `i`: a summary marker, or a blank line with
`i > start + 10` (the Python condition
`line.strip() == '' and i > transaction_data_start + 10`). -/
def isStop (line : Str) (i start : Nat) : Bool :=
  containsSub line (chars "Resumen de Estado Bancario") ||
  containsSub line (chars "C√≥digo Transacci√≥n Totales") ||
  (pyStrip line == [] && decide (start + 10 < i))

/-- Worker of `find_end`: scan the remaining lines with their absolute
index, returning the index of the first terminator, or `total` (the
full line count) if none is found. -/
def find_end_go (start total : Nat) : Nat → List Str → Nat
  | _, [] => total
  | i, l :: t => if isStop l i start then i else find_end_go start total (i + 1) t

/-- End of the transaction block: the `transaction_data_end` scan of
`parse_bac_csv`, starting at `start` (the line after the header) and
defaulting to the number of lines. -/
def find_end (lines : List Str) (start : Nat) : Nat :=
  find_end_go start lines.length start (lines.drop start)

/-- The keep filter applied to each stripped line of the detected range:
non-blank and not starting with `'Resumen'` or `'C√≥digo'`. -/
def keepLine (l : Str) : Bool :=
  !l.isEmpty && !(chars "Resumen").isPrefixOf l && !(chars "C√≥digo").isPrefixOf l

/-- `List.mapM` over `Except`, written recursively so that lengths and
error propagation are easy to reason about. -/
def mapExcept {α β ε : Type} (f : α → Except ε β) : List α → Except ε (List β)
  | [] => .ok []
  | a :: as =>
    match f a with
    | .error e => .error e
    | .ok b => (mapExcept f as).map (fun bs => b :: bs)

/-- A CSV field becomes a cell: an empty field is a `NaN` cell. -/
def toCell (f : Str) : Option Str := if f.isEmpty then none else some f

/-- One data line of `pandas.read_csv(..., sep=',', skipinitialspace=True)`:
split on commas, drop spaces after each delimiter, error when the line
has more fields than the header (pandas raises a tokenizing error), pad
short lines with `NaN`.  The model is not quote-aware; the inputs the
claims quantify over contain no quote characters. -/
def readCsvLine (ncols : Nat) (l : Str) : Except Unit (List (Option Str)) :=
  if ncols < ((splitChar ',' l).map (List.dropWhile (· == ' '))).length then .error ()
  else
    .ok ((((splitChar ',' l).map (List.dropWhile (· == ' '))).map toCell) ++
      List.replicate (ncols - ((splitChar ',' l).map (List.dropWhile (· == ' '))).length) none)

/-- `pandas.read_csv` on the reassembled header line plus data lines.
Dtype inference (pandas parsing numeric columns into floats) is not
modelled: cells stay strings, which is value-preserving for every use
the program makes of them. -/
def read_csv (headerLine : Str) (dataLines : List Str) : Except Unit DataFrame :=
  match mapExcept (readCsvLine ((splitChar ',' headerLine).map (List.dropWhile (· == ' '))).length) dataLines with
  | .error e => .error e
  | .ok rows =>
    .ok { cols := (splitChar ',' headerLine).map (List.dropWhile (· == ' ')), rows := rows }

/-- `parse_bac_csv(file_content)`: split on newlines, locate the header
line (primary spelling first, then the fallback scan), find the end of
the transaction block, keep the stripped non-summary lines, and parse
header plus data lines as CSV, returning the frame and the kept-line
count.  The `headers` variable of the source is dead code (pandas
re-derives the columns from the header line) and is not modelled. -/
def parse_bac_csv (content : String) : Except ParseErr (DataFrame × Nat) :=
  match (match findHeaderIdx primaryHeader (splitChar '\n' content.data) with
         | some i => some i
         | none => findHeaderIdx fallbackHeader (splitChar '\n' content.data)) with
  | none => .error .noHeader
  | some hIdx =>
    match read_csv (pyStrip ((splitChar '\n' content.data).getD hIdx []))
        (((((splitChar '\n' content.data).take
              (find_end (splitChar '\n' content.data) (hIdx + 1))).drop (hIdx + 1)).map
            pyStrip).filter keepLine) with
    | .error _ => .error .csvErr
    | .ok df =>
      .ok (df, (((((splitChar '\n' content.data).take
              (find_end (splitChar '\n' content.data) (hIdx + 1))).drop (hIdx + 1)).map
            pyStrip).filter keepLine).length)

/-!
### The transformer (`convert_bac_to_monarch_format`)
-/

/-- The column alias table of the source, in dict order. -/
def aliasTable : List (Str × Str) :=
  [ (chars "Fecha de Transacci√≥n", chars "Date"),
    (chars "Fecha de Transaccion", chars "Date"),
    (chars "Fecha", chars "Date"),
    (chars "Descripci√≥n de Transacci√≥n", chars "Merchant"),
    (chars "Descripcion de Transaccion", chars "Merchant"),
    (chars "Descripci√≥n", chars "Merchant"),
    (chars "Descripcion", chars "Merchant"),
    (chars "D√©bito de Transacci√≥n", chars "Debit"),
    (chars "Debito de Transaccion", chars "Debit"),
    (chars "D√©bito", chars "Debit"),
    (chars "Debito", chars "Debit"),
    (chars "Cr√©dito de Transacci√≥n", chars "Credit"),
    (chars "Credito de Transaccion", chars "Credit"),
    (chars "Cr√©dito", chars "Credit"),
    (chars "Credito", chars "Credit") ]

/-- Sequentially rename columns through the alias table (each
`df.rename` renames every column bearing the old name). -/
def renameAll (cols : List Str) : List Str :=
  aliasTable.foldl
    (fun cs p => if cs.contains p.1 then cs.map (fun c => if c == p.1 then p.2 else c) else cs)
    cols

/-- Exponent application for scientific notation, over `ℚ`. -/
def applyExp (q : ℚ) (neg : Bool) (e : Nat) : ℚ :=
  if neg then q / 10 ^ e else q * 10 ^ e

/-- Parse the optional exponent tail of a numeric literal. -/
def parseExp (q : ℚ) : Str → Option ℚ
  | [] => some q
  | e :: t =>
    if e == 'e' || e == 'E' then
      match t with
      | '+' :: ds => if ds ≠ [] && ds.all Char.isDigit then some (applyExp q false (natOfDigits ds)) else none
      | '-' :: ds => if ds ≠ [] && ds.all Char.isDigit then some (applyExp q true (natOfDigits ds)) else none
      | ds => if ds ≠ [] && ds.all Char.isDigit then some (applyExp q false (natOfDigits ds)) else none
    else none

/-- The unsigned part of a numeric literal: digits, with an optional
decimal point and an optional exponent. -/
def parseUnsigned (s : Str) : Option ℚ :=
  match s.dropWhile Char.isDigit with
  | '.' :: t =>
    if (s.takeWhile Char.isDigit).isEmpty && (t.takeWhile Char.isDigit).isEmpty then none
    else
      parseExp
        ((natOfDigits (s.takeWhile Char.isDigit) : ℚ) +
          (natOfDigits (t.takeWhile Char.isDigit) : ℚ) / 10 ^ (t.takeWhile Char.isDigit).length)
        (t.dropWhile Char.isDigit)
  | r =>
    if (s.takeWhile Char.isDigit).isEmpty then none
    else parseExp (natOfDigits (s.takeWhile Char.isDigit) : ℚ) r

/-- Model of `pd.to_numeric(x, errors='coerce')` on an
already-comma-stripped, whitespace-stripped string: sign, decimal
digits, optional fraction and exponent; anything else (including
`"nan"`) coerces to `NaN`, i.e. `none`.  The `inf`/`infinity` spellings
pandas accepts have no `ℚ` value and are outside the model. -/
def parseNumber (s : Str) : Option ℚ :=
  match s with
  | '+' :: t => parseUnsigned t
  | '-' :: t => (parseUnsigned t).map (fun q => -q)
  | t => parseUnsigned t

/-- The cleaned numeric value of a Debit/Credit cell:
`astype(str)` → remove commas → strip → `to_numeric` → `fillna(0)`. -/
def cleanNum (c : Option Str) : ℚ :=
  (parseNumber (pyStrip ((cellToStr c).filter (· != ',')))).getD 0

/-- Days of each month, with the Gregorian leap rule. -/
def daysInMonth (y m : Nat) : Nat :=
  if m = 2 then (if y % 4 = 0 && (y % 100 ≠ 0 || y % 400 = 0) then 29 else 28)
  else if m = 4 || m = 6 || m = 9 || m = 11 then 30
  else 31

/-- Strict `pd.to_datetime(x, format='%d/%m/%Y', errors='coerce')` on a
cell string: day and month of one or two digits, a four-digit year, and
calendar validity; anything else is `NaT`. -/
def parseDate (s : Str) : Option (Nat × Nat × Nat) :=
  match splitChar '/' s with
  | [ds, ms, ys] =>
    if ds ≠ [] && ds.length ≤ 2 && ds.all Char.isDigit &&
       ms ≠ [] && ms.length ≤ 2 && ms.all Char.isDigit &&
       ys.length = 4 && ys.all Char.isDigit then
      if 1 ≤ natOfDigits ms && natOfDigits ms ≤ 12 &&
         1 ≤ natOfDigits ds && natOfDigits ds ≤ daysInMonth (natOfDigits ys) (natOfDigits ms) &&
         1 ≤ natOfDigits ys then
        some (natOfDigits ds, natOfDigits ms, natOfDigits ys)
      else none
    else none
  | _ => none

/-- Zero-padded two-digit rendering. -/
def pad2 (n : Nat) : Str := if n < 10 then '0' :: natToStr n else natToStr n

/-- Zero-padded four-digit rendering. -/
def pad4 (n : Nat) : Str :=
  if n < 10 then '0' :: '0' :: '0' :: natToStr n
  else if n < 100 then '0' :: '0' :: natToStr n
  else if n < 1000 then '0' :: natToStr n
  else natToStr n

/-- `strftime('%Y-%m-%d')` of a parsed date. -/
def fmtDate (d : Nat × Nat × Nat) : Str :=
  pad4 d.2.2 ++ '-' :: pad2 d.2.1 ++ '-' :: pad2 d.1

/-- Date cell conversion: `NaN` and unparseable dates become `NaT`;
valid `DD/MM/YYYY` dates are reformatted to ISO. -/
def dateConvert (c : Option Str) : Option Str :=
  match c with
  | none => none
  | some s => (parseDate s).map fmtDate

/-- An output row in Monarch Money format.  `amount` is kept as an exact
rational (the source holds a float64; every value the program produces
from decimal text fits the model). -/
structure MonarchRow where
  date : Str
  merchant : Str
  category : Str
  account : Str
  original : Str
  notes : Str
  amount : ℚ
  tags : Str
deriving DecidableEq, Repr

/-- Failure modes of the transformer (surfaced through `st.error` in the
source, which then returns an empty frame): the missing
Date/Merchant-column report with the available columns (the spec's
`SchemaError`), and the missing Debit/Credit report. -/
inductive ConvertError
  | missingColumns (missing : List Str) (available : List Str)
  | missingDebitCredit
deriving DecidableEq, Repr

/-- The two required canonical columns checked by the source. -/
def requiredCols : List Str := [chars "Date", chars "Merchant"]

/-- Build one Monarch row from a date-converted row. -/
def monarchRowOf (jd jm jdeb jcred : Nat) (import_id : Nat)
    (r : List (Option Str)) : MonarchRow :=
  { date := (r.getD jd none).getD [],
    merchant := pyStrip (cellToStr (r.getD jm none)),
    category := [],
    account := chars "BAC",
    original := [],
    notes := chars "id=" ++ natToStr import_id,
    amount := cleanNum (r.getD jcred none) - cleanNum (r.getD jdeb none),
    tags := [] }

/-- `convert_bac_to_monarch_format(df, import_id, bac, sinpe)`:
empty-frame early return, account-mapping pass on a copy, alias
renaming, required-column check, date conversion with row dropping,
Debit/Credit check, and emission of the eight fixed columns.  The final
`dropna` of the source is a no-op (dates were already filtered,
merchant and amount are never null after `astype`/`fillna`) and is not
modelled. -/
def convert_bac_to_monarch_format (df : DataFrame) (import_id : Nat)
    (bac sinpe : List (Str × Str)) : Except ConvertError (List MonarchRow) :=
  if df.rows.isEmpty || df.cols.isEmpty then .ok []
  else
    match requiredCols.filter
        (fun c => !(renameAll (apply_account_mappings df bac sinpe).cols).contains c) with
    | _ :: _ =>
      .error (.missingColumns
        (requiredCols.filter
          (fun c => !(renameAll (apply_account_mappings df bac sinpe).cols).contains c))
        (renameAll (apply_account_mappings df bac sinpe).cols))
    | [] =>
      if (renameAll (apply_account_mappings df bac sinpe).cols).contains (chars "Debit") &&
         (renameAll (apply_account_mappings df bac sinpe).cols).contains (chars "Credit") then
        .ok
          (((apply_account_mappings df bac sinpe).rows.filterMap
              (fun r =>
                (dateConvert
                    (r.getD ((colIdx (chars "Date")
                        (renameAll (apply_account_mappings df bac sinpe).cols)).getD 0) none)).map
                  (fun ds =>
                    r.set ((colIdx (chars "Date")
                        (renameAll (apply_account_mappings df bac sinpe).cols)).getD 0)
                      (some ds)))).map
            (monarchRowOf
              ((colIdx (chars "Date") (renameAll (apply_account_mappings df bac sinpe).cols)).getD 0)
              ((colIdx (chars "Merchant") (renameAll (apply_account_mappings df bac sinpe).cols)).getD 0)
              ((colIdx (chars "Debit") (renameAll (apply_account_mappings df bac sinpe).cols)).getD 0)
              ((colIdx (chars "Credit") (renameAll (apply_account_mappings df bac sinpe).cols)).getD 0)
              import_id))
      else .error .missingDebitCredit

/-!
### Two-decimal rounding (used only to compare against the claimed
`round(Credit − Debit, 2)`)
-/

/-- Round a rational to the nearest integer, ties to even. -/
def roundHalfEvenInt (q : ℚ) : ℤ :=
  if q - ⌊q⌋ < 1 / 2 then ⌊q⌋
  else if 1 / 2 < q - ⌊q⌋ then ⌊q⌋ + 1
  else if ⌊q⌋ % 2 = 0 then ⌊q⌋ else ⌊q⌋ + 1

/-- Round a rational to the nearest integer, ties away from zero. -/
def roundHalfAwayInt (q : ℚ) : ℤ :=
  if 0 ≤ q then ⌊q + 1 / 2⌋ else -⌊-q + 1 / 2⌋

/-- `round(q, 2)` with ties to even. -/
def roundQ2even (q : ℚ) : ℚ := (roundHalfEvenInt (q * 100) : ℚ) / 100

/-- `round(q, 2)` with ties away from zero. -/
def roundQ2away (q : ℚ) : ℚ := (roundHalfAwayInt (q * 100) : ℚ) / 100

/-!
### Parser lemmas
-/

/-- A predicate failing on every line yields no header index. -/
theorem findHeaderIdx_none (p : Str → Bool) :
    ∀ (ls : List Str), (∀ l ∈ ls, p l = false) → findHeaderIdx p ls = none := by
  intro ls
  induction ls with
  | nil => intro _; rfl
  | cons x xs ih =>
    intro h
    simp only [findHeaderIdx, h x (by simp)]
    rw [ih (fun l hl => h l (by simp [hl]))]
    rfl

/-- The first satisfying line after a clean prefix is found at the
prefix length. -/
theorem findHeaderIdx_append_first (p : Str → Bool) :
    ∀ (pre : List Str) (hline : Str) (rest : List Str),
      (∀ l ∈ pre, p l = false) → p hline = true →
      findHeaderIdx p (pre ++ hline :: rest) = some pre.length := by
  intro pre
  induction pre with
  | nil =>
    intro hline rest _ hh
    simp only [List.nil_append, findHeaderIdx, hh]
    rfl
  | cons x xs ih =>
    intro hline rest hpre hh
    simp only [List.cons_append, findHeaderIdx, hpre x (by simp), List.append_eq]
    rw [ih hline rest (fun l hl => hpre l (by simp [hl])) hh]
    rfl

/-- `getD` at the junction point of an append. -/
theorem getD_append_length {α : Type} :
    ∀ (pre : List α) (x : α) (rest : List α) (d : α),
      (pre ++ x :: rest).getD pre.length d = x := by
  intro pre
  induction pre with
  | nil => intro x rest d; rfl
  | cons y ys ih => intro x rest d; simpa using ih x rest d

/-- Skipping a stop-free block in the end scan. -/
theorem find_end_go_skip (start total : Nat) :
    ∀ (L M : List Str) (i : Nat),
      (∀ k, k < L.length → isStop (L.getD k []) (i + k) start = false) →
      find_end_go start total i (L ++ M) = find_end_go start total (i + L.length) M := by
  intro L
  induction L with
  | nil => intro M i _; simp [find_end_go]
  | cons x xs ih =>
    intro M i h
    have h0 : isStop x i start = false := by simpa using h 0 (by simp)
    simp only [List.cons_append, find_end_go, h0, List.append_eq]
    simp only [Bool.false_eq_true, if_false]
    rw [ih M (i + 1) (fun k hk => by
      have := h (k + 1) (by simpa using Nat.succ_lt_succ hk)
      simpa [Nat.add_assoc, Nat.add_comm 1 k] using this)]
    congr 1
    simp [List.length_cons]
    omega

/-- The end scan as a first-index search: `find_end` returns the least
index `i ≥ start` whose line satisfies `isStop`, and the line count when
there is none. -/
theorem find_end_spec (lines : List Str) (start : Nat) :
    find_end lines start =
      ((List.range' start (lines.length - start)).find?
        (fun i => isStop (lines.getD i []) i start)).getD lines.length := by
  suffices h : ∀ (n i : Nat), lines.length - i = n →
      find_end_go start lines.length i (lines.drop i) =
        ((List.range' i n).find? (fun k => isStop (lines.getD k []) k start)).getD lines.length by
    exact h (lines.length - start) start rfl
  intro n
  induction n with
  | zero =>
    intro i hi
    have hle : lines.length ≤ i := by omega
    rw [List.drop_of_length_le hle]
    rfl
  | succ n ih =>
    intro i hi
    have hlt : i < lines.length := by omega
    rw [List.drop_eq_getElem_cons hlt]
    have hrange : List.range' i (n + 1) = i :: List.range' (i + 1) n := rfl
    rw [hrange]
    simp only [find_end_go, List.find?_cons]
    rw [← List.getD_eq_getElem lines [] hlt]
    cases hstop : isStop (lines.getD i []) i start with
    | true => rfl
    | false => exact ih (i + 1) (by omega)

/-- A well-formed transaction line relative to the header line `hline`:
non-blank, free of the summary markers and prefixes, no more fields
than the header, and quote-free (the CSV model is not quote-aware). -/
def wellFormedDataLine (hline l : Str) : Prop :=
  pyStrip l ≠ [] ∧
  (chars "Resumen").isPrefixOf (pyStrip l) = false ∧
  (chars "C√≥digo").isPrefixOf (pyStrip l) = false ∧
  containsSub l (chars "Resumen de Estado Bancario") = false ∧
  containsSub l (chars "C√≥digo Transacci√≥n Totales") = false ∧
  (splitChar ',' (pyStrip l)).length ≤ (splitChar ',' (pyStrip hline)).length ∧
  '"' ∉ l

instance (hline l : Str) : Decidable (wellFormedDataLine hline l) := by
  unfold wellFormedDataLine
  infer_instance

/-- `mapExcept` succeeds when every element succeeds, preserving
length. -/
theorem mapExcept_ok {α β ε : Type} (f : α → Except ε β) :
    ∀ (ls : List α), (∀ a ∈ ls, ∃ b, f a = .ok b) →
      ∃ rs, mapExcept f ls = .ok rs ∧ rs.length = ls.length := by
  intro ls
  induction ls with
  | nil => intro _; exact ⟨[], rfl, rfl⟩
  | cons a as ih =>
    intro h
    obtain ⟨b, hb⟩ := h a (by simp)
    obtain ⟨rs, hrs, hlen⟩ := ih (fun x hx => h x (by simp [hx]))
    refine ⟨b :: rs, ?_, by simp [hlen]⟩
    simp only [mapExcept, hb, hrs, Except.map]

/-- A well-formed line survives the keep filter after stripping. -/
theorem keepLine_of_wf {hline l : Str} (h : wellFormedDataLine hline l) :
    keepLine (pyStrip l) = true := by
  obtain ⟨h1, h2, h3, -⟩ := h
  have he : (pyStrip l).isEmpty = false := List.isEmpty_eq_false.mpr h1
  simp [keepLine, he, h2, h3]

/-- A well-formed line never terminates the end scan. -/
theorem not_isStop_of_wf {hline l : Str} (h : wellFormedDataLine hline l)
    (i start : Nat) : isStop l i start = false := by
  obtain ⟨h1, -, -, h4, h5, -⟩ := h
  have he : (pyStrip l == []) = false := by
    cases hb : pyStrip l == []
    · rfl
    · exact absurd (by simpa using hb) h1
  simp [isStop, h4, h5, he]

/-!
### Claim theorems
-/

/-- C9: when both the internal and the interbank mapping are empty,
`apply_account_mappings` is the identity on the frame, and in
particular on the merchant text of every row. -/
theorem c9_empty_mappings_identity (df : DataFrame) :
    apply_account_mappings df [] [] = df := by
  unfold apply_account_mappings
  cases h : merchantColIdx df.cols with
  | none => rfl
  | some j =>
    have hcell : ∀ r : List (Option Str),
        r.set j (replace_transfers [] [] (r.getD j none)) = r := by
      intro r
      rw [replace_transfers_nil]
      exact set_getD_cancel r j none
    simp only [hcell, List.map_id']

/-- C8: on a description that starts with `"PIN-SINPE A:"` but also
contains `"CD SINPE A "` later, `detect_sinpe_accounts` slices at the
position of the `'CD SINPE A '` occurrence plus 12 and collects `"22"`,
not the token `"111"` that immediately follows the matched prefix: the
claimed extraction rule fails on this input. -/
theorem c8_detect_sinpe_pin_cd :
    detect_sinpe_accounts
        ⟨[chars "Merchant"], [[some (chars "PIN-SINPE A:111 CD SINPE A 222")]]⟩ =
      [chars "22"] ∧
    chars "111" ∉ detect_sinpe_accounts
        ⟨[chars "Merchant"], [[some (chars "PIN-SINPE A:111 CD SINPE A 222")]]⟩ := by
  exact ⟨by decide, by decide⟩

/-- C3 (counterexample): `apply_account_mappings` mutates the dataframe
passed by reference — after the call, the heap cell that held the input
frame holds the rewritten frame, so the row set passed in is not
unchanged. -/
theorem c3_mutation_counterexample :
    apply_account_mappings_ref
        [⟨[chars "Merchant"], [[some (chars "TEF A: 12345")]]⟩] 0
        [(chars "12345", chars "Mom")] [] =
      ([⟨[chars "Merchant"], [[some (chars "Mom - BAC:12345")]]⟩], 0) ∧
    (⟨[chars "Merchant"], [[some (chars "Mom - BAC:12345")]]⟩ : DataFrame) ≠
      ⟨[chars "Merchant"], [[some (chars "TEF A: 12345")]]⟩ := by
  exact ⟨by decide, by decide⟩

/-- C3 (amended): `apply_account_mappings` returns the very reference it
was given with the heap cell overwritten in place, and as a value
transformation it changes at most the description column — columns, row
count and every cell outside the merchant column are unchanged. -/
theorem c3_mutating_frame_property (df : DataFrame) (bac sinpe : List (Str × Str)) :
    (apply_account_mappings df bac sinpe).cols = df.cols ∧
    (apply_account_mappings df bac sinpe).rows.length = df.rows.length ∧
    (∀ i j : Nat, merchantColIdx df.cols ≠ some j →
      cellAt (apply_account_mappings df bac sinpe) i j = cellAt df i j) ∧
    (∀ (h : List DataFrame) (ref : Nat), h.get? ref = some df →
      apply_account_mappings_ref h ref bac sinpe =
        (h.set ref (apply_account_mappings df bac sinpe), ref)) := by
  refine ⟨apply_account_mappings_cols df bac sinpe,
          apply_account_mappings_len df bac sinpe, ?_, ?_⟩
  · intro i j hne
    unfold apply_account_mappings
    cases hm : merchantColIdx df.cols with
    | none => rfl
    | some jm =>
      have hjm : jm ≠ j := by
        intro hcontra
        exact hne (by rw [hm, hcontra])
      unfold cellAt
      simp only
      rw [getD_map_nil _ (by rfl)]
      exact getD_set_ne _ jm j _ none hjm
  · intro h ref href
    unfold apply_account_mappings_ref
    rw [href]

/-- C3 (witness for the amended theorem). -/
theorem c3_mutating_frame_property_witness :
    apply_account_mappings_ref [⟨[chars "Merchant"], [[some (chars "TEF A: 7")]]⟩] 0 [] [] =
      ([apply_account_mappings ⟨[chars "Merchant"], [[some (chars "TEF A: 7")]]⟩ [] []], 0) :=
  (c3_mutating_frame_property ⟨[chars "Merchant"], [[some (chars "TEF A: 7")]]⟩ [] []).2.2.2
    [⟨[chars "Merchant"], [[some (chars "TEF A: 7")]]⟩] 0 rfl


/-- C2 (counterexample): a row whose Credit cell is `"0.005"` and whose
Debit cell is absent is emitted with Amount `0.005` exactly; no
two-decimal rounding convention maps `0.005` to itself, so the emitted
Amount is not `round(Credit − Debit, 2)`. -/
theorem c2_rounding_counterexample :
    convert_bac_to_monarch_format
        ⟨[chars "Fecha", chars "Descripcion", chars "Debito", chars "Credito"],
         [[some (chars "01/03/2024"), some (chars "X"), none, some (chars "0.005")]]⟩
        1 [] [] =
      .ok [{ date := chars "2024-03-01", merchant := chars "X", category := [],
             account := chars "BAC", original := [], notes := chars "id=1",
             amount := cleanNum (some (chars "0.005")) - cleanNum (none : Option Str),
             tags := [] }] ∧
    cleanNum (some (chars "0.005")) - cleanNum (none : Option Str) = 1 / 200 ∧
    roundQ2even (1 / 200) ≠ 1 / 200 ∧ roundQ2away (1 / 200) ≠ 1 / 200 := by
  have hc : cleanNum (some (chars "0.005")) =
      (natOfDigits (chars "0") : ℚ) + (natOfDigits (chars "005") : ℚ) / 10 ^ (chars "005").length := rfl
  have hn : cleanNum (none : Option Str) = 0 := rfl
  have hval : cleanNum (some (chars "0.005")) - cleanNum (none : Option Str) = 1 / 200 := by
    rw [hc, hn]
    rw [show natOfDigits (chars "0") = 0 from rfl, show natOfDigits (chars "005") = 5 from rfl,
        show (chars "005").length = 3 from rfl]
    norm_num
  refine ⟨rfl, hval, ?_, ?_⟩
  · have hfl : ⌊(1 / 200 : ℚ) * 100⌋ = 0 := by
      rw [Int.floor_eq_iff]
      norm_num
    have h2 : roundQ2even (1 / 200) = 0 := by
      unfold roundQ2even roundHalfEvenInt
      rw [hfl]
      rw [if_neg (by norm_num), if_neg (by norm_num), if_pos (by norm_num)]
      norm_num
    rw [h2]; norm_num
  · have hfl : ⌊(1 / 200 : ℚ) * 100 + 1 / 2⌋ = 1 := by
      rw [Int.floor_eq_iff]
      norm_num
    have h2 : roundQ2away (1 / 200) = 1 / 100 := by
      unfold roundQ2away roundHalfAwayInt
      rw [if_pos (by norm_num), hfl]
      norm_num
    rw [h2]; norm_num

/-- C2 (amended): for every input row the emitted Amount equals
`Credit − Debit` exactly, with no rounding applied, where Debit and
Credit are the cell values after comma removal and whitespace
stripping, and an unparseable or absent value counts as zero
(`cleanNum`); a row with both cells absent has Amount `0`. -/
theorem c2_amount_formula (dcell ccell desc : Option Str)
    (bac sinpe : List (Str × Str)) (import_id : Nat) :
    convert_bac_to_monarch_format
        ⟨[chars "Fecha", chars "Descripcion", chars "Debito", chars "Credito"],
         [[some (chars "01/03/2024"), desc, dcell, ccell]]⟩
        import_id bac sinpe =
      .ok [{ date := chars "2024-03-01", merchant := pyStrip (cellToStr desc),
             category := [], account := chars "BAC", original := [],
             notes := chars "id=" ++ natToStr import_id,
             amount := cleanNum ccell - cleanNum dcell, tags := [] }] ∧
    (dcell = none → ccell = none → cleanNum ccell - cleanNum dcell = 0) := by
  constructor
  · have happ : apply_account_mappings
        ⟨[chars "Fecha", chars "Descripcion", chars "Debito", chars "Credito"],
         [[some (chars "01/03/2024"), desc, dcell, ccell]]⟩ bac sinpe =
        ⟨[chars "Fecha", chars "Descripcion", chars "Debito", chars "Credito"],
         [[some (chars "01/03/2024"), desc, dcell, ccell]]⟩ := rfl
    unfold convert_bac_to_monarch_format
    rw [happ]
    rw [show (DataFrame.mk [chars "Fecha", chars "Descripcion", chars "Debito", chars "Credito"]
          [[some (chars "01/03/2024"), desc, dcell, ccell]]).cols =
        [chars "Fecha", chars "Descripcion", chars "Debito", chars "Credito"] from rfl]
    rw [show renameAll [chars "Fecha", chars "Descripcion", chars "Debito", chars "Credito"] =
        [chars "Date", chars "Merchant", chars "Debit", chars "Credit"] from rfl]
    rfl
  · rintro rfl rfl
    have hn : cleanNum (none : Option Str) = 0 := rfl
    rw [hn]
    norm_num

/-- C2 (witness for the amended theorem). -/
theorem c2_amount_formula_witness :
    cleanNum (none : Option Str) - cleanNum (none : Option Str) = 0 :=
  (c2_amount_formula none none none [] [] 5).2 rfl rfl

/-- C4 (counterexample): a frame with a resolvable date column but no
description column is rejected with the missing-columns error — the
transformer fails although it is not the case that *neither* column can
be located, refuting the "exactly when neither" reading; the reported
error carries the missing canonical name and the columns present. -/
theorem c4_either_missing_counterexample :
    convert_bac_to_monarch_format
        ⟨[chars "Fecha", chars "Debito", chars "Credito"],
         [[some (chars "01/03/2024"), none, some (chars "5")]]⟩ 0 [] [] =
      .error (.missingColumns [chars "Merchant"] [chars "Date", chars "Debit", chars "Credit"]) ∧
    (renameAll [chars "Fecha", chars "Debito", chars "Credito"]).contains (chars "Date") = true := by
  exact ⟨rfl, rfl⟩

/-- C4 (amended): for a nonempty input frame, the transformer fails with
the missing-columns `SchemaError` exactly when at least one of the
canonical Date/Merchant columns cannot be located after aliasing; the
error then reports the missing canonical names together with the
columns actually present, and when both columns resolve no
missing-columns error is ever produced (absent Debit/Credit raises the
distinct `missingDebitCredit` error). -/
theorem c4_schema_error_iff (df : DataFrame) (import_id : Nat) (bac sinpe : List (Str × Str))
    (h1 : df.rows ≠ []) (h2 : df.cols ≠ []) :
    (requiredCols.filter (fun c => !(renameAll df.cols).contains c) ≠ [] →
      convert_bac_to_monarch_format df import_id bac sinpe =
        .error (.missingColumns
          (requiredCols.filter (fun c => !(renameAll df.cols).contains c))
          (renameAll df.cols))) ∧
    (requiredCols.filter (fun c => !(renameAll df.cols).contains c) = [] →
      ∀ m a, convert_bac_to_monarch_format df import_id bac sinpe ≠
        .error (.missingColumns m a)) := by
  have hcols := apply_account_mappings_cols df bac sinpe
  have hre : df.rows.isEmpty = false := List.isEmpty_eq_false.mpr h1
  have hce : df.cols.isEmpty = false := List.isEmpty_eq_false.mpr h2
  constructor
  · intro hne
    cases hm : requiredCols.filter (fun c => !(renameAll df.cols).contains c) with
    | nil => exact absurd hm hne
    | cons x xs =>
      unfold convert_bac_to_monarch_format
      rw [hcols]
      simp only [hre, hce, Bool.or_self, Bool.false_eq_true, if_false, hm]
  · intro hm m a
    unfold convert_bac_to_monarch_format
    rw [hcols]
    simp only [hre, hce, Bool.or_self, Bool.false_eq_true, if_false, hm]
    cases hdc : ((renameAll df.cols).contains (chars "Debit") &&
        (renameAll df.cols).contains (chars "Credit")) with
    | true => simp [hdc]
    | false => simp [hdc]

/-- C4 (witness for the amended theorem). -/
theorem c4_schema_error_iff_witness :
    convert_bac_to_monarch_format
        ⟨[chars "Fecha", chars "Descripcion"], [[some (chars "x"), some (chars "y")]]⟩ 3 [] [] ≠
      .error (.missingColumns [] []) :=
  (c4_schema_error_iff ⟨[chars "Fecha", chars "Descripcion"], [[some (chars "x"), some (chars "y")]]⟩
    3 [] [] (by simp) (by simp)).2 (by rfl) [] []

/-- C5: when no line of the input matches either known
transaction-header spelling, `parse_bac_csv` fails with the
format error and returns nothing else. -/
theorem c5_no_header_format_error (content : String)
    (h : ∀ l ∈ splitChar '\n' content.data,
        primaryHeader l = false ∧ fallbackHeader l = false) :
    parse_bac_csv content = .error .noHeader := by
  have hp : findHeaderIdx primaryHeader (splitChar '\n' content.data) = none :=
    findHeaderIdx_none _ _ (fun l hl => (h l hl).1)
  have hf : findHeaderIdx fallbackHeader (splitChar '\n' content.data) = none :=
    findHeaderIdx_none _ _ (fun l hl => (h l hl).2)
  unfold parse_bac_csv
  rw [hp, hf]

/-- C5 (witness). -/
theorem c5_no_header_format_error_witness :
    parse_bac_csv "hello\nworld" = .error .noHeader :=
  c5_no_header_format_error "hello\nworld" (by decide)

/-- C10: a description that starts with `"PIN-SINPE A:"` and contains
neither the substring `"CD SINPE A "` nor any internal TEF reference is
left unchanged by `apply_account_mappings` for every choice of
mappings, even when its detected reference is a key of the interbank
mapping. -/
theorem c10_pin_sinpe_not_rewritten (df : DataFrame) (bac sinpe : List (Str × Str))
    (i j : Nat) (d : Str)
    (hj : merchantColIdx df.cols = some j)
    (hcell : cellAt df i j = some d)
    (hpin : (chars "PIN-SINPE A:").isPrefixOf d = true)
    (hcd : containsSub d (chars "CD SINPE A ") = false)
    (htef : findTEFRefs d = []) :
    cellAt (apply_account_mappings df bac sinpe) i j = some d := by
  have hrepl : replace_transfers bac sinpe (some d) = some d := by
    simp only [replace_transfers]
    rw [subTEF_id_of_noRefs d.length d (le_refl _) htef bac]
    rw [hcd]
    simp
  have hlt : j < (df.rows.getD i []).length := by
    by_contra hge
    push_neg at hge
    have : cellAt df i j = none := List.getD_eq_default _ _ hge
    rw [this] at hcell
    cases hcell
  unfold apply_account_mappings
  rw [hj]
  unfold cellAt at hcell ⊢
  simp only
  rw [getD_map_nil _ (by rfl), hcell, hrepl]
  exact getD_set_self _ j _ none hlt

/-- C10 (witness). -/
theorem c10_pin_sinpe_not_rewritten_witness :
    cellAt (apply_account_mappings ⟨[chars "Merchant"], [[some (chars "PIN-SINPE A:111 x")]]⟩
        [] [(chars "111", chars "Bob")]) 0 0 = some (chars "PIN-SINPE A:111 x") :=
  c10_pin_sinpe_not_rewritten ⟨[chars "Merchant"], [[some (chars "PIN-SINPE A:111 x")]]⟩
    [] [(chars "111", chars "Bob")] 0 0 (chars "PIN-SINPE A:111 x")
    (by rfl) (by rfl) (by rfl) (by rfl) (by rfl)

/-- C6 (counterexample): in an input whose header is followed by twelve
blank lines and then a data line, the scan stops at the blank line of
index 12 — a blank line preceded by *zero* data lines — merely because
its index exceeds `start + 10`, and the trailing data line is dropped
(`parse` returns 0 rows).  Under the claimed rule (blank lines
terminate only once at least 10 data lines have been seen) no
terminator would exist and the block would run to the end of input,
yielding 1 row. -/
theorem c6_blank_guard_counterexample :
    parse_bac_csv "Fecha de Transacci√≥n,D\n\n\n\n\n\n\n\n\n\n\n\n\nx,1" =
      .ok (⟨[chars "Fecha de Transacci√≥n", chars "D"], []⟩, 0) ∧
    find_end (splitChar '\n' ("Fecha de Transacci√≥n,D\n\n\n\n\n\n\n\n\n\n\n\n\nx,1").data) 1 = 12 ∧
    pyStrip ((splitChar '\n' ("Fecha de Transacci√≥n,D\n\n\n\n\n\n\n\n\n\n\n\n\nx,1").data).getD 12 []) = [] ∧
    (splitChar '\n' ("Fecha de Transacci√≥n,D\n\n\n\n\n\n\n\n\n\n\n\n\nx,1").data).getD 13 [] = chars "x,1" ∧
    (splitChar '\n' ("Fecha de Transacci√≥n,D\n\n\n\n\n\n\n\n\n\n\n\n\nx,1").data).length = 14 := by
  exact ⟨rfl, rfl, rfl, rfl, rfl⟩

/-- C6 (amended): the parser ends the transaction block at the first
line, scanning from the line after the header, that either contains one
of the two summary-section markers or is blank with an absolute index
greater than `start + 10` — a positional guard that counts every
intervening line, blank or not, rather than data lines; if no such line
exists the block extends to the end of the input.  `isStop` is that
terminator test and the scan returns the first index satisfying it. -/
theorem c6_block_end_rule (lines : List Str) (start : Nat) :
    find_end lines start =
      ((List.range' start (lines.length - start)).find?
        (fun i => isStop (lines.getD i []) i start)).getD lines.length :=
  find_end_spec lines start

/-- C7: at an internal-transfer reference match (`TEF`, a nonempty
whitespace run, `A`, optional whitespace, `:`, optional whitespace, a
maximal digit run), `subTEF` replaces the matched substring by
`"<friendlyName> - BAC:<digits>"` when the digit run is a key of the
internal mapping, and reproduces the matched substring verbatim when it
is not; the scan then continues after the match. -/
theorem c7_tef_reference_rewrite (m : List (Str × Str)) (ws1 ws2 ws3 ds rest : Str)
    (h1 : ws1 ≠ []) (h1s : ∀ c ∈ ws1, isPySpace c = true)
    (h2s : ∀ c ∈ ws2, isPySpace c = true) (h3s : ∀ c ∈ ws3, isPySpace c = true)
    (hd : ds ≠ []) (hds : ∀ c ∈ ds, c.isDigit = true)
    (hr : ∀ c, rest.head? = some c → c.isDigit = false) :
    subTEF m (chars "TEF" ++ ws1 ++ chars "A" ++ ws2 ++ chars ":" ++ ws3 ++ ds ++ rest) =
      (match alookup m ds with
       | some nm => nm ++ chars " - BAC:" ++ ds
       | none => chars "TEF" ++ ws1 ++ chars "A" ++ ws2 ++ chars ":" ++ ws3 ++ ds) ++
        subTEF m rest := by
  have sp1 := takeWhile_app (p := isPySpace)
    (w := ws1) (r := 'A' :: (ws2 ++ ':' :: (ws3 ++ (ds ++ rest)))) h1s
    (fun c hc => by
      simp only [List.head?_cons, Option.some.injEq] at hc
      subst hc; decide)
  have sp2 := takeWhile_app (p := isPySpace)
    (w := ws2) (r := ':' :: (ws3 ++ (ds ++ rest))) h2s
    (fun c hc => by
      simp only [List.head?_cons, Option.some.injEq] at hc
      subst hc; decide)
  have sp3 := takeWhile_app (p := isPySpace)
    (w := ws3) (r := ds ++ rest) h3s
    (fun c hc => by
      cases ds with
      | nil => exact absurd rfl hd
      | cons d0 ds' =>
        simp only [List.cons_append, List.head?_cons, Option.some.injEq] at hc
        subst hc
        exact digit_not_space (hds d0 (by simp)))
  have sp4 := takeWhile_app (p := Char.isDigit) (w := ds) (r := rest) hds hr
  have hmatch : matchTEF ('T' :: 'E' :: 'F' :: (ws1 ++ 'A' :: (ws2 ++ ':' :: (ws3 ++ (ds ++ rest))))) =
      some ('T' :: 'E' :: 'F' :: (ws1 ++ 'A' :: (ws2 ++ ':' :: (ws3 ++ ds))), ds, rest) := by
    simp only [matchTEF, sp1.1, sp1.2, sp2.1, sp2.2, sp3.1, sp3.2, sp4.1, sp4.2, h1, hd,
      if_false]
  have hshape : chars "TEF" ++ ws1 ++ chars "A" ++ ws2 ++ chars ":" ++ ws3 ++ ds ++ rest =
      'T' :: 'E' :: 'F' :: (ws1 ++ 'A' :: (ws2 ++ ':' :: (ws3 ++ (ds ++ rest)))) := by
    rw [show chars "TEF" = ['T', 'E', 'F'] from rfl, show chars "A" = ['A'] from rfl,
        show chars ":" = [':'] from rfl]
    simp [List.append_assoc]
  rw [hshape, subTEF_cons_match hmatch]
  cases halk : alookup m ds with
  | some nm => rfl
  | none =>
    simp only
    congr 1
    rw [show chars "TEF" = ['T', 'E', 'F'] from rfl, show chars "A" = ['A'] from rfl,
        show chars ":" = [':'] from rfl]
    simp [List.append_assoc]

/-- C7 (witness). -/
theorem c7_tef_reference_rewrite_witness :
    subTEF [(chars "12345", chars "Mom")] (chars "TEF A: 12345 ok") =
      chars "Mom - BAC:12345 ok" := by
  have h := c7_tef_reference_rewrite [(chars "12345", chars "Mom")]
    [' '] [] [' '] (chars "12345") (chars " ok")
    (by decide) (by decide) (by decide) (by decide) (by decide) (by decide)
    (fun c hc => by
      rw [show (chars " ok").head? = some ' ' from rfl] at hc
      cases hc
      decide)
  rw [show chars "TEF A: 12345 ok" =
      chars "TEF" ++ [' '] ++ chars "A" ++ ([] : Str) ++ chars ":" ++ [' '] ++
        chars "12345" ++ chars " ok" from rfl]
  rw [h]
  rfl

/-- C1: for a statement text splitting into arbitrary preamble lines, a
valid transaction-header line (either header spelling, found first), N
well-formed transaction lines, and either nothing or a summary section,
`parse_bac_csv` succeeds with a frame of exactly N rows and a count of
N. -/
theorem c1_parse_counts (content : String) (pre data post : List Str) (hline : Str)
    (hsplit : splitChar '\n' content.data = pre ++ hline :: (data ++ post))
    (hheader :
      (primaryHeader hline = true ∧ ∀ l ∈ pre, primaryHeader l = false) ∨
      (fallbackHeader hline = true ∧
        (∀ l ∈ splitChar '\n' content.data, primaryHeader l = false) ∧
        (∀ l ∈ pre, fallbackHeader l = false)))
    (hdata : ∀ l ∈ data, wellFormedDataLine hline l)
    (hpost : post = [] ∨ ∃ p ps, post = p :: ps ∧
        (containsSub p (chars "Resumen de Estado Bancario") = true ∨
         containsSub p (chars "C√≥digo Transacci√≥n Totales") = true)) :
    ∃ df, parse_bac_csv content = .ok (df, data.length) ∧
      df.rows.length = data.length := by
  have hidx : (match findHeaderIdx primaryHeader (pre ++ hline :: (data ++ post)) with
               | some i => some i
               | none => findHeaderIdx fallbackHeader (pre ++ hline :: (data ++ post))) =
      some pre.length := by
    cases hheader with
    | inl hA =>
      rw [findHeaderIdx_append_first primaryHeader pre hline (data ++ post) hA.2 hA.1]
    | inr hB =>
      have hpn : findHeaderIdx primaryHeader (pre ++ hline :: (data ++ post)) = none := by
        apply findHeaderIdx_none
        intro l hl
        exact hB.2.1 l (by rw [hsplit]; exact hl)
      rw [hpn, findHeaderIdx_append_first fallbackHeader pre hline (data ++ post) hB.2.2 hB.1]
  have hdrop : (pre ++ hline :: (data ++ post)).drop (pre.length + 1) = data ++ post := by
    rw [List.append_cons]
    rw [show pre.length + 1 = (pre ++ [hline]).length by simp]
    exact List.drop_left _ _
  have hlen : (pre ++ hline :: (data ++ post)).length =
      pre.length + 1 + data.length + post.length := by
    simp [List.length_append]
    omega
  have hfe : find_end (pre ++ hline :: (data ++ post)) (pre.length + 1) =
      pre.length + 1 + data.length := by
    unfold find_end
    rw [hdrop]
    rw [find_end_go_skip (pre.length + 1) (pre ++ hline :: (data ++ post)).length data post
        (pre.length + 1)
        (fun k hk => by
          have hmem : data.getD k [] ∈ data := by
            rw [List.getD_eq_getElem data [] hk]
            exact List.getElem_mem hk
          exact not_isStop_of_wf (hdata _ hmem) _ _)]
    cases hpost with
    | inl hnil =>
      subst hnil
      show find_end_go _ _ _ [] = _
      unfold find_end_go
      rw [hlen]
      simp
    | inr hcons =>
      obtain ⟨p, ps, rfl, hmark⟩ := hcons
      show find_end_go _ _ _ (p :: ps) = _
      unfold find_end_go
      have hstop : isStop p (pre.length + 1 + data.length) (pre.length + 1) = true := by
        cases hmark with
        | inl h => simp [isStop, h]
        | inr h => simp [isStop, h]
      rw [hstop]
      simp
  have hslice : (((pre ++ hline :: (data ++ post)).take (pre.length + 1 + data.length)).drop
      (pre.length + 1)) = data := by
    rw [List.drop_take]
    rw [hdrop]
    rw [show pre.length + 1 + data.length - (pre.length + 1) = data.length by omega]
    exact List.take_left data post
  have hfilter : ((data.map pyStrip).filter keepLine) = data.map pyStrip :=
    List.filter_eq_self.mpr (fun x hx => by
      obtain ⟨l, hl, rfl⟩ := List.mem_map.mp hx
      exact keepLine_of_wf (hdata l hl))
  have hgetd : (pre ++ hline :: (data ++ post)).getD pre.length [] = hline :=
    getD_append_length pre hline (data ++ post) []
  obtain ⟨rows, hcsv_eq, hrows⟩ :
      ∃ rows, read_csv (pyStrip hline) (data.map pyStrip) =
        .ok ⟨(splitChar ',' (pyStrip hline)).map (List.dropWhile (· == ' ')), rows⟩ ∧
        rows.length = data.length := by
    obtain ⟨rs, hrs, hlen'⟩ := mapExcept_ok
      (readCsvLine ((splitChar ',' (pyStrip hline)).map (List.dropWhile (· == ' '))).length)
      (data.map pyStrip)
      (fun a ha => by
        obtain ⟨l, hl, rfl⟩ := List.mem_map.mp ha
        have hle := (hdata l hl).2.2.2.2.2.1
        unfold readCsvLine
        rw [if_neg (by simp only [List.length_map]; omega)]
        exact ⟨_, rfl⟩)
    refine ⟨rs, ?_, by rw [hlen']; simp⟩
    unfold read_csv
    rw [hrs]
  refine ⟨⟨(splitChar ',' (pyStrip hline)).map (List.dropWhile (· == ' ')), rows⟩, ?_, hrows⟩
  simp only [parse_bac_csv, hsplit, hidx, hgetd, hfe, hslice, hfilter, hcsv_eq,
    List.length_map]

/-- C1 (witness). -/
theorem c1_parse_counts_witness :
    ∃ df, parse_bac_csv
        "junk\nFecha de Transacci√≥n,Descripcion\n01/03/2024,A\n02/03/2024,B\nResumen de Estado Bancario" =
        .ok (df, 2) ∧ df.rows.length = 2 :=
  c1_parse_counts
    "junk\nFecha de Transacci√≥n,Descripcion\n01/03/2024,A\n02/03/2024,B\nResumen de Estado Bancario"
    [chars "junk"] [chars "01/03/2024,A", chars "02/03/2024,B"]
    [chars "Resumen de Estado Bancario"] (chars "Fecha de Transacci√≥n,Descripcion")
    rfl (Or.inl ⟨rfl, by decide⟩) (by decide)
    (Or.inr ⟨chars "Resumen de Estado Bancario", [], rfl, Or.inl rfl⟩)
